import Mathlib

/-!
# eddsa: the Ed25519 scheme of `ed25519.go`

A shallow embedding of `src/ed25519.go`: the Ed25519 implementation of the
`Curve` interface (`GenerateKey`, `Sign`, `Verify`, `KeySize`), the two
marshalling accessors `Public25519` / `Private25519`, and the fixed-size
conversion helpers `un32` / `un64`.

Conventions of the embedding.

* A Go byte slice is a `List Byte`; only its length and contents matter to the
  code, so a nil slice held in a key field is the empty list. Where the code
  returns a slice or a pointer that may be nil, the result is an `Option`
  (`none` is nil).
* A `*[n]byte` is a `FixedBytes n`. The helpers `un32` / `un64` return a pointer
  to the first `n` bytes of the slice's backing array; the embedding records
  the contents seen through that pointer, not the aliasing.
* Pointer arguments (`*PublicKey`, `*PrivateKey`) are taken to be non-nil.
* A run of the code is an `Exec`: the calls it makes to `un32`, `un64` and the
  external primitive, in order, and how it ends (a returned value or a Go
  panic).
* The primitive `github.com/agl/ed25519` is outside the repository. It is a
  parameter (`Primitive`) of every operation that calls it.
-/

namespace Eddsa

/-! ## Data model -/

/-- Go's `byte`. -/
abbrev Byte := Fin 256

/-- Go's array type `[n]byte`, reached through a non-nil pointer. -/
abbrev FixedBytes (n : Nat) := { l : List Byte // l.length = n }

/-- Modelled from the spec: Go `error` values. The package variable
`errInvalidPrivateKey` (the spec's `InvalidKeyError`) is declared outside
`src/`; every other error (those of the random source and the primitive) is
`other` with its message. -/
inductive GoError where
  | errInvalidPrivateKey
  | other (msg : String)
  deriving DecidableEq, Repr

/-- Modelled from the spec: a value of the `Curve` interface, declared outside
`src/`. The code only inspects its dynamic type (the type assertion
`.(ed25519Impl)`), which is one of: no value at all (nil interface), the
Ed25519 scheme, or some other scheme. -/
inductive Curve where
  | nil
  | ed25519Impl
  | other (name : String)
  deriving DecidableEq, Repr

/-- Modelled from the spec: the struct `PublicKey` (declared outside `src/`),
the scheme that produced the key and the raw public bytes. -/
structure PublicKey where
  Curve : Curve
  X : List Byte
  deriving DecidableEq, Repr

/-- Modelled from the spec: the struct `PrivateKey` (declared outside `src/`),
which embeds a `PublicKey` and adds the raw private bytes. -/
structure PrivateKey extends PublicKey where
  D : List Byte
  deriving DecidableEq, Repr

/-! ## Runs: calls made and final outcome -/

/-- The calls a run can make that the properties below speak about. -/
inductive Call where
  | un32
  | un64
  | primGenerateKey
  | primSign
  | primVerify
  deriving DecidableEq, Repr

/-- How a run ends: it returns a value, or it panics with a message. -/
inductive Outcome (α : Type) where
  | ret (a : α)
  | panic (msg : String)
  deriving DecidableEq, Repr

/-- A run: the calls made so far, in order, and the outcome. -/
structure Exec (α : Type) where
  calls : List Call
  outcome : Outcome α
  deriving DecidableEq, Repr

/-- Returning a value makes no call. -/
def Exec.pure {α : Type} (a : α) : Exec α := ⟨[], Outcome.ret a⟩

/-- Sequencing: a panic ends the run; otherwise the calls of the continuation
follow those of the first part. -/
def Exec.bind {α β : Type} (x : Exec α) (f : α → Exec β) : Exec β :=
  match x.outcome with
  | Outcome.panic msg => ⟨x.calls, Outcome.panic msg⟩
  | Outcome.ret a => ⟨x.calls ++ (f a).calls, (f a).outcome⟩

instance : Monad Exec where
  pure := Exec.pure
  bind := Exec.bind

/-- A run that ends without a panic. -/
def Exec.noPanic {α : Type} (x : Exec α) : Bool :=
  match x.outcome with
  | Outcome.ret _ => true
  | Outcome.panic _ => false

/-! ## The external primitive -/

/-- Modelled from the spec: the external primitive `github.com/agl/ed25519`, a
black box with `GenerateKey(rand) -> (pub[32], priv[64], err)`,
`Sign(priv[64], msg) -> sig[64]` and `Verify(pub[32], msg, sig[64]) -> bool`.
`ρ` is the state of the random source (`io.Reader`) handed to `GenerateKey`,
which either returns an error or the two arrays. -/
structure Primitive (ρ : Type) where
  GenerateKey : ρ → Except GoError (FixedBytes 32 × FixedBytes 64)
  Sign : FixedBytes 64 → List Byte → FixedBytes 64
  Verify : FixedBytes 32 → List Byte → FixedBytes 64 → Bool

/-- The call `ed25519.GenerateKey(rand)`. -/
def primGenerateKey {ρ : Type} (prim : Primitive ρ) (rand : ρ) :
    Exec (Except GoError (FixedBytes 32 × FixedBytes 64)) :=
  ⟨[Call.primGenerateKey], Outcome.ret (prim.GenerateKey rand)⟩

/-- The call `ed25519.Sign(privateKey, message)`. -/
def primSign {ρ : Type} (prim : Primitive ρ) (sk : FixedBytes 64) (data : List Byte) :
    Exec (FixedBytes 64) :=
  ⟨[Call.primSign], Outcome.ret (prim.Sign sk data)⟩

/-- The call `ed25519.Verify(publicKey, message, sig)`. -/
def primVerify {ρ : Type} (prim : Primitive ρ) (pk : FixedBytes 32) (data : List Byte)
    (sig : FixedBytes 64) : Exec Bool :=
  ⟨[Call.primVerify], Outcome.ret (prim.Verify pk data sig)⟩

/-- The byte layout the spec states for the primitive's keys: bytes 32..63 of
the private key are the public key. -/
def Primitive.Layout {ρ : Type} (prim : Primitive ρ) : Prop :=
  ∀ rand pk sk, prim.GenerateKey rand = Except.ok (pk, sk) → sk.val.drop 32 = pk.val

/-- The primitive's own round trip: its `Verify` accepts what its `Sign`
produces for a key pair from its `GenerateKey`. -/
def Primitive.RoundTrip {ρ : Type} (prim : Primitive ρ) : Prop :=
  ∀ rand pk sk, prim.GenerateKey rand = Except.ok (pk, sk) →
    ∀ data, prim.Verify pk data (prim.Sign sk data) = true

/-! ## Go built-ins used by the code -/

/-- Go's `make([]byte, n)`: `n` zero bytes. -/
def make (n : Nat) : List Byte := List.replicate n 0

/-- Go's `copy(dst, src)`: the first `min(len(dst), len(src))` bytes of `dst`
are overwritten with those of `src`; the result is the new contents of `dst`. -/
def copy (dst src : List Byte) : List Byte :=
  src.take (min dst.length src.length) ++ dst.drop (min dst.length src.length)

/-! ## `ed25519.go` -/

/-- The helper `un32`: panics on a slice shorter than 32 bytes, otherwise a
pointer to the first 32 bytes of the slice. -/
def un32 (s : List Byte) : Exec (FixedBytes 32) :=
  if h : s.length < 32 then
    ⟨[Call.un32], Outcome.panic "un32 called with non-32-byte slice"⟩
  else
    ⟨[Call.un32], Outcome.ret ⟨s.take 32, by rw [List.length_take]; omega⟩⟩

/-- The helper `un64`: panics on a slice shorter than 64 bytes, otherwise a
pointer to the first 64 bytes of the slice. -/
def un64 (s : List Byte) : Exec (FixedBytes 64) :=
  if h : s.length < 64 then
    ⟨[Call.un64], Outcome.panic "un64 called with non-64-byte slice"⟩
  else
    ⟨[Call.un64], Outcome.ret ⟨s.take 64, by rw [List.length_take]; omega⟩⟩

/-- The constructor `Ed25519()`. -/
def Ed25519 : Curve := Curve.ed25519Impl

/-- The method `ed25519Impl.GenerateKey`: the pair `(priv, err)` it returns. -/
def GenerateKey {ρ : Type} (prim : Primitive ρ) (rand : ρ) :
    Exec (Option PrivateKey × Option GoError) := do
  let r ← primGenerateKey prim rand
  match r with
  | Except.error err => pure (none, some err)
  | Except.ok (pk, sk) =>
    let priv : PrivateKey :=
      { Curve := Ed25519, X := make 32, D := make 64 }
    let priv : PrivateKey := { priv with X := copy priv.X pk.val }
    let priv : PrivateKey := { priv with D := copy priv.D sk.val }
    pure (some priv, none)

/-- The method `ed25519Impl.Sign`: the pair `(signature, err)` it returns. -/
def Sign {ρ : Type} (prim : Primitive ρ) (priv : PrivateKey) (data : List Byte) :
    Exec (Option (List Byte) × Option GoError) :=
  if priv.D.length ≠ 64 then
    pure (none, some GoError.errInvalidPrivateKey)
  else do
    let sk ← un64 priv.D
    let sig ← primSign prim sk data
    pure (some sig.val, none)

/-- The method `ed25519Impl.Verify`. The arguments of the primitive call are
evaluated left to right: `un32(pub.X)`, then `un64(sig)`. -/
def Verify {ρ : Type} (prim : Primitive ρ) (pub : PublicKey) (data sig : List Byte) :
    Exec Bool :=
  if sig.length ≠ 64 ∨ pub.X.length ≠ 32 then
    pure false
  else do
    let pk ← un32 pub.X
    let s ← un64 sig
    primVerify prim pk data s

/-- The method `ed25519Impl.Name`. -/
def Name : String := "Ed25519"

/-- The method `ed25519Impl.KeySize`:
`(publicKeySize, privateKeySize, signatureSize)`. -/
def KeySize : Nat × Nat × Nat := (32, 64, 64)

/-- The type assertion `c.(ed25519Impl)`: its `ok` result. -/
def Curve.isEd25519Impl : Curve → Bool
  | Curve.ed25519Impl => true
  | _ => false

/-- The accessor `Public25519`: nil for a key of another scheme, otherwise
`un32(pub.X)`. -/
def Public25519 (pub : PublicKey) : Exec (Option (FixedBytes 32)) :=
  if !pub.Curve.isEd25519Impl then
    pure none
  else do
    let a ← un32 pub.X
    pure (some a)

/-- The accessor `Private25519`: nil for a key of another scheme, otherwise
`un64(priv.D)`. -/
def Private25519 (priv : PrivateKey) : Exec (Option (FixedBytes 64)) :=
  if !priv.Curve.isEd25519Impl then
    pure none
  else do
    let a ← un64 priv.D
    pure (some a)

/-! ## Concrete inputs

A small primitive with the shape of the real one (a 32-byte seed read from the
random source, a public key derived from it, the private key the seed followed
by the public key), and a few keys, used to evaluate the code. -/

/-- Stand-in for the derivation of the public key from the seed. -/
def samplePublic (seed : List Byte) : List Byte := seed.map (fun b => b + 1)

/-- Stand-in for the digest of a message: 32 bytes. -/
def sampleDigest (data : List Byte) : List Byte :=
  List.replicate 32 (data.foldl (fun acc b => acc + b) 0)

/-- Key generation of the sample primitive: the random source is the list of
bytes it can still deliver; 32 of them are read as the seed. -/
def sampleGenerateKey (rand : List Byte) : Except GoError (FixedBytes 32 × FixedBytes 64) :=
  if h : rand.length < 32 then
    Except.error (GoError.other "unexpected EOF")
  else
    Except.ok
      (⟨samplePublic (rand.take 32), by
          rw [samplePublic, List.length_map, List.length_take]; omega⟩,
       ⟨rand.take 32 ++ samplePublic (rand.take 32), by
          rw [samplePublic, List.length_append, List.length_map, List.length_take]; omega⟩)

/-- Signing of the sample primitive: the public half of the key, then the digest. -/
def sampleSign (sk : FixedBytes 64) (data : List Byte) : FixedBytes 64 :=
  ⟨sk.val.drop 32 ++ sampleDigest data, by
    rw [sampleDigest, List.length_append, List.length_drop, List.length_replicate, sk.property]⟩

/-- Verification of the sample primitive. -/
def sampleVerify (pk : FixedBytes 32) (data : List Byte) (sig : FixedBytes 64) : Bool :=
  decide (sig.val = pk.val ++ sampleDigest data)

/-- The sample primitive. -/
def samplePrimitive : Primitive (List Byte) :=
  ⟨sampleGenerateKey, sampleSign, sampleVerify⟩

/-- A random source that delivers 32 bytes, all 7. -/
def sampleRand : List Byte := List.replicate 32 7

/-- A random source that is exhausted. -/
def emptyRand : List Byte := []

/-- The key the code builds from `sampleRand` with the sample primitive. -/
def sampleKey : PrivateKey :=
  { Curve := Curve.ed25519Impl
    X := List.replicate 32 8
    D := List.replicate 32 7 ++ List.replicate 32 8 }

/-- A message. -/
def sampleData : List Byte := [104, 105]

/-- An Ed25519-tagged key whose byte fields are too short. -/
def shortKey : PrivateKey :=
  { Curve := Curve.ed25519Impl, X := [1, 2, 3], D := [4, 5] }

/-- An Ed25519-tagged key whose byte fields are one byte too long. -/
def longKey : PrivateKey :=
  { Curve := Curve.ed25519Impl
    X := List.replicate 32 1 ++ [9]
    D := List.replicate 64 2 ++ [9] }

/-- A key of another scheme, with short byte fields. -/
def otherKey : PrivateKey :=
  { Curve := Curve.other "P-256", X := [1], D := [2] }

/-! ## Helper lemmas -/

theorem copy_make (n : Nat) (src : List Byte) (h : src.length = n) :
    copy (make n) src = src := by
  simp [copy, make, h]

theorem un32_of_length (s : List Byte) (h : s.length = 32) :
    un32 s = ⟨[Call.un32], Outcome.ret ⟨s, h⟩⟩ := by
  have hlt : ¬ s.length < 32 := by omega
  simp only [un32, dif_neg hlt]
  congr 2
  exact Subtype.ext (List.take_of_length_le (by simp [h]))

theorem un64_of_length (s : List Byte) (h : s.length = 64) :
    un64 s = ⟨[Call.un64], Outcome.ret ⟨s, h⟩⟩ := by
  have hlt : ¬ s.length < 64 := by omega
  simp only [un64, dif_neg hlt]
  congr 2
  exact Subtype.ext (List.take_of_length_le (by simp [h]))

theorem un32_of_le (s : List Byte) (h : 32 ≤ s.length) :
    ∃ a : FixedBytes 32, un32 s = ⟨[Call.un32], Outcome.ret a⟩ ∧ a.val = s.take 32 := by
  have hlt : ¬ s.length < 32 := by omega
  refine ⟨⟨s.take 32, by rw [List.length_take]; omega⟩, ?_, rfl⟩
  simp only [un32, dif_neg hlt]

theorem un64_of_le (s : List Byte) (h : 64 ≤ s.length) :
    ∃ a : FixedBytes 64, un64 s = ⟨[Call.un64], Outcome.ret a⟩ ∧ a.val = s.take 64 := by
  have hlt : ¬ s.length < 64 := by omega
  refine ⟨⟨s.take 64, by rw [List.length_take]; omega⟩, ?_, rfl⟩
  simp only [un64, dif_neg hlt]

theorem bind_ret {α β : Type} (c : List Call) (a : α) (f : α → Exec β) :
    (Exec.mk c (Outcome.ret a) >>= f) = ⟨c ++ (f a).calls, (f a).outcome⟩ := rfl

theorem bind_panic {α β : Type} (c : List Call) (msg : String) (f : α → Exec β) :
    (Exec.mk c (Outcome.panic msg) >>= f) = ⟨c, Outcome.panic msg⟩ := rfl

theorem pure_eq {α : Type} (a : α) : (Pure.pure a : Exec α) = ⟨[], Outcome.ret a⟩ := rfl

theorem GenerateKey_error {ρ : Type} (prim : Primitive ρ) (rand : ρ) (e : GoError)
    (h : prim.GenerateKey rand = Except.error e) :
    GenerateKey prim rand = ⟨[Call.primGenerateKey], Outcome.ret (none, some e)⟩ := by
  simp [GenerateKey, primGenerateKey, bind_ret, pure_eq, h]

theorem GenerateKey_ok {ρ : Type} (prim : Primitive ρ) (rand : ρ)
    (pk : FixedBytes 32) (sk : FixedBytes 64)
    (h : prim.GenerateKey rand = Except.ok (pk, sk)) :
    GenerateKey prim rand =
      ⟨[Call.primGenerateKey],
        Outcome.ret (some { Curve := Curve.ed25519Impl, X := pk.val, D := sk.val }, none)⟩ := by
  simp [GenerateKey, primGenerateKey, bind_ret, pure_eq, h, Ed25519,
    copy_make 32 pk.val pk.property, copy_make 64 sk.val sk.property]

theorem Sign_of_length {ρ : Type} (prim : Primitive ρ) (priv : PrivateKey) (data : List Byte)
    (h : priv.D.length = 64) :
    Sign prim priv data =
      ⟨[Call.un64, Call.primSign],
        Outcome.ret (some (prim.Sign ⟨priv.D, h⟩ data).val, none)⟩ := by
  simp [Sign, h, un64_of_length priv.D h, primSign, bind_ret, pure_eq]

theorem Sign_of_bad_length {ρ : Type} (prim : Primitive ρ) (priv : PrivateKey)
    (data : List Byte) (h : priv.D.length ≠ 64) :
    Sign prim priv data = ⟨[], Outcome.ret (none, some GoError.errInvalidPrivateKey)⟩ := by
  simp [Sign, h, pure_eq]

theorem Verify_of_length {ρ : Type} (prim : Primitive ρ) (pub : PublicKey)
    (data sig : List Byte) (hs : sig.length = 64) (hx : pub.X.length = 32) :
    Verify prim pub data sig =
      ⟨[Call.un32, Call.un64, Call.primVerify],
        Outcome.ret (prim.Verify ⟨pub.X, hx⟩ data ⟨sig, hs⟩)⟩ := by
  simp [Verify, hs, hx, un32_of_length pub.X hx, un64_of_length sig hs, primVerify, bind_ret]

theorem Verify_of_bad_length {ρ : Type} (prim : Primitive ρ) (pub : PublicKey)
    (data sig : List Byte) (h : sig.length ≠ 64 ∨ pub.X.length ≠ 32) :
    Verify prim pub data sig = ⟨[], Outcome.ret false⟩ := by
  simp only [Verify, if_pos h, pure_eq]

theorem samplePrimitive_layout : samplePrimitive.Layout := by
  intro rand pk sk h
  simp only [samplePrimitive, sampleGenerateKey] at h
  split at h
  · exact absurd h (by simp)
  · rename_i hlen
    simp only [Except.ok.injEq, Prod.mk.injEq] at h
    obtain ⟨h1, h2⟩ := h
    subst h1 h2
    have : (List.take 32 rand).length = 32 := by rw [List.length_take]; omega
    simp [List.drop_append_eq_append_drop, this]

theorem samplePrimitive_roundTrip : samplePrimitive.RoundTrip := by
  intro rand pk sk h data
  have hl := samplePrimitive_layout rand pk sk h
  simp [samplePrimitive, sampleVerify, sampleSign, hl]

theorem GenerateKey_some_inv {ρ : Type} (prim : Primitive ρ) (rand : ρ) (k : PrivateKey)
    (err : Option GoError)
    (hgen : (GenerateKey prim rand).outcome = Outcome.ret (some k, err)) :
    ∃ pk sk, prim.GenerateKey rand = Except.ok (pk, sk) ∧
      k = { Curve := Curve.ed25519Impl, X := pk.val, D := sk.val } ∧ err = none := by
  cases h : prim.GenerateKey rand with
  | error e =>
    rw [GenerateKey_error prim rand e h] at hgen
    simp at hgen
  | ok p =>
    obtain ⟨pk, sk⟩ := p
    rw [GenerateKey_ok prim rand pk sk h] at hgen
    simp only [Outcome.ret.injEq, Prod.mk.injEq, Option.some.injEq] at hgen
    exact ⟨pk, sk, rfl, hgen.1.symm, hgen.2.symm⟩

/-! ## The claims -/

/-- C1: `Sign` always returns, and it fails (returns a non-nil error) exactly
when `len(priv.D) != 64`; when it fails the error is `errInvalidPrivateKey`,
the signature is nil, and the run has made no call at all (neither `un64` nor
the primitive is reached). -/
theorem Sign_fails_iff_bad_length {ρ : Type} (prim : Primitive ρ) (priv : PrivateKey)
    (data : List Byte) :
    ∃ sig err, (Sign prim priv data).outcome = Outcome.ret (sig, err) ∧
      (err ≠ none ↔ priv.D.length ≠ 64) ∧
      (err ≠ none →
        sig = none ∧ err = some GoError.errInvalidPrivateKey ∧
          (Sign prim priv data).calls = []) := by
  by_cases h : priv.D.length = 64
  · refine ⟨_, _, by rw [Sign_of_length prim priv data h], ?_, ?_⟩ <;> simp [h]
  · refine ⟨_, _, by rw [Sign_of_bad_length prim priv data h], ?_, ?_⟩
    · simp [h]
    · intro _
      exact ⟨rfl, rfl, by rw [Sign_of_bad_length prim priv data h]⟩

/-- C2: when `len(sig) != 64` or `len(pub.X) != 32`, `Verify` returns false
without a panic and without any call (`un32`, `un64` and the primitive are not
reached), whatever the message. -/
theorem Verify_false_of_bad_length {ρ : Type} (prim : Primitive ρ) (pub : PublicKey)
    (data sig : List Byte) (h : sig.length ≠ 64 ∨ pub.X.length ≠ 32) :
    (Verify prim pub data sig).outcome = Outcome.ret false ∧
      (Verify prim pub data sig).calls = [] := by
  rw [Verify_of_bad_length prim pub data sig h]
  exact ⟨rfl, rfl⟩

/-- Witness of C2: a 3-byte public key and an empty signature. -/
theorem Verify_false_of_bad_length_witness :
    (([] : List Byte).length ≠ 64 ∨ shortKey.toPublicKey.X.length ≠ 32) ∧
      (Verify samplePrimitive shortKey.toPublicKey sampleData []).outcome = Outcome.ret false ∧
      (Verify samplePrimitive shortKey.toPublicKey sampleData []).calls = [] :=
  ⟨Or.inl (by decide),
    Verify_false_of_bad_length samplePrimitive shortKey.toPublicKey sampleData []
      (Or.inl (by decide))⟩

/-- C3: round trip. For a primitive whose `Verify` accepts what its `Sign`
produces for a key pair from its `GenerateKey`, every key `k` returned by a
successful `GenerateKey` signs every message successfully, and `Verify` on
`k.PublicKey`, the message and that signature returns true. -/
theorem GenerateKey_Sign_Verify_roundTrip {ρ : Type} (prim : Primitive ρ)
    (hrt : prim.RoundTrip) (rand : ρ) (k : PrivateKey)
    (hgen : (GenerateKey prim rand).outcome = Outcome.ret (some k, none))
    (data : List Byte) :
    ∃ s, (Sign prim k data).outcome = Outcome.ret (some s, none) ∧
      (Verify prim k.toPublicKey data s).outcome = Outcome.ret true := by
  obtain ⟨pk, sk, hprim, hk, _⟩ := GenerateKey_some_inv prim rand k none hgen
  subst hk
  refine ⟨(prim.Sign sk data).val, ?_, ?_⟩
  · rw [Sign_of_length prim _ data sk.property]
  · rw [Verify_of_length prim _ data _ (prim.Sign sk data).property pk.property]
    exact congrArg Outcome.ret (hrt rand pk sk hprim data)

/-- Witness of C3: the sample primitive, the key it yields from `sampleRand`. -/
theorem GenerateKey_Sign_Verify_roundTrip_witness :
    samplePrimitive.RoundTrip ∧
      (GenerateKey samplePrimitive sampleRand).outcome = Outcome.ret (some sampleKey, none) ∧
      ∃ s, (Sign samplePrimitive sampleKey sampleData).outcome = Outcome.ret (some s, none) ∧
        (Verify samplePrimitive sampleKey.toPublicKey sampleData s).outcome
          = Outcome.ret true :=
  ⟨samplePrimitive_roundTrip, rfl,
    GenerateKey_Sign_Verify_roundTrip samplePrimitive samplePrimitive_roundTrip sampleRand
      sampleKey rfl sampleData⟩

/-- C4: a key returned by a successful `GenerateKey` has `len(X) == 32` and
`len(D) == 64`; and, the primitive laying its private key out as the spec
states (bytes 32..63 are the public key), `D[32:64]` equals `X`. -/
theorem GenerateKey_lengths_and_layout {ρ : Type} (prim : Primitive ρ) (rand : ρ)
    (k : PrivateKey)
    (hgen : (GenerateKey prim rand).outcome = Outcome.ret (some k, none)) :
    k.X.length = 32 ∧ k.D.length = 64 ∧
      (prim.Layout → (k.D.drop 32).take 32 = k.X) := by
  obtain ⟨pk, sk, hprim, hk, _⟩ := GenerateKey_some_inv prim rand k none hgen
  subst hk
  refine ⟨pk.property, sk.property, fun hl => ?_⟩
  show (sk.val.drop 32).take 32 = pk.val
  rw [hl rand pk sk hprim]
  exact List.take_of_length_le (by rw [pk.property])

/-- Witness of C4: the key the sample primitive yields from `sampleRand`. -/
theorem GenerateKey_lengths_and_layout_witness :
    (GenerateKey samplePrimitive sampleRand).outcome = Outcome.ret (some sampleKey, none) ∧
      samplePrimitive.Layout ∧
      sampleKey.X.length = 32 ∧ sampleKey.D.length = 64 ∧
      (sampleKey.D.drop 32).take 32 = sampleKey.X :=
  have h := GenerateKey_lengths_and_layout samplePrimitive sampleRand sampleKey rfl
  ⟨rfl, samplePrimitive_layout, h.1, h.2.1, h.2.2 samplePrimitive_layout⟩

/-- C5, counterexample: `longKey` is tagged Ed25519 and `Public25519` returns a
view of it, but the 32 bytes seen through the view are not the 33 bytes of `X`;
likewise `Private25519` and the 65 bytes of `D`. -/
theorem accessors_view_ne_raw_bytes_longKey :
    longKey.Curve = Curve.ed25519Impl ∧
      (∃ a, (Public25519 longKey.toPublicKey).outcome = Outcome.ret (some a) ∧
        a.val ≠ longKey.X) ∧
      (∃ a, (Private25519 longKey).outcome = Outcome.ret (some a) ∧ a.val ≠ longKey.D) := by
  refine ⟨rfl, ⟨⟨List.replicate 32 1, rfl⟩, rfl, by decide⟩,
    ⟨⟨List.replicate 64 2, rfl⟩, rfl, by decide⟩⟩

/-- C5, amended: for a key tagged Ed25519 whose `X` has at least 32 bytes,
`Public25519` returns a view whose contents are the first 32 bytes of `X`, hence
`X` exactly when `len(X) == 32`; for a key tagged Ed25519 whose `D` has at least
64 bytes, `Private25519` returns a view whose contents are the first 64 bytes
of `D`, hence `D` exactly when `len(D) == 64`. -/
theorem accessors_view_of_ed25519 (pub : PublicKey) (priv : PrivateKey) :
    (pub.Curve = Curve.ed25519Impl → 32 ≤ pub.X.length →
      ∃ a, (Public25519 pub).outcome = Outcome.ret (some a) ∧ a.val = pub.X.take 32 ∧
        (pub.X.length = 32 → a.val = pub.X)) ∧
    (priv.Curve = Curve.ed25519Impl → 64 ≤ priv.D.length →
      ∃ a, (Private25519 priv).outcome = Outcome.ret (some a) ∧ a.val = priv.D.take 64 ∧
        (priv.D.length = 64 → a.val = priv.D)) := by
  constructor
  · intro hc hlen
    obtain ⟨a, hun, ha⟩ := un32_of_le pub.X hlen
    refine ⟨a, ?_, ha, fun h => ?_⟩
    · simp [Public25519, hc, Curve.isEd25519Impl, hun, bind_ret, pure_eq]
    · rw [ha]
      exact List.take_of_length_le (by rw [h])
  · intro hc hlen
    obtain ⟨a, hun, ha⟩ := un64_of_le priv.D hlen
    refine ⟨a, ?_, ha, fun h => ?_⟩
    · simp [Private25519, hc, Curve.isEd25519Impl, hun, bind_ret, pure_eq]
    · rw [ha]
      exact List.take_of_length_le (by rw [h])

/-- Witness of C5, amended: the generated key `sampleKey`, whose fields have
exactly 32 and 64 bytes. -/
theorem accessors_view_of_ed25519_witness :
    sampleKey.Curve = Curve.ed25519Impl ∧ 32 ≤ sampleKey.X.length ∧
      64 ≤ sampleKey.D.length ∧
      (∃ a, (Public25519 sampleKey.toPublicKey).outcome = Outcome.ret (some a) ∧
        a.val = sampleKey.X.take 32 ∧ (sampleKey.X.length = 32 → a.val = sampleKey.X)) ∧
      (∃ a, (Private25519 sampleKey).outcome = Outcome.ret (some a) ∧
        a.val = sampleKey.D.take 64 ∧ (sampleKey.D.length = 64 → a.val = sampleKey.D)) :=
  ⟨rfl, by decide, by decide,
    (accessors_view_of_ed25519 sampleKey.toPublicKey sampleKey).1 rfl (by decide),
    (accessors_view_of_ed25519 sampleKey.toPublicKey sampleKey).2 rfl (by decide)⟩

/-- C6: for a key whose `Curve` is not the Ed25519 scheme, `Public25519` and
`Private25519` return nil, whatever the lengths of `X` and `D`: the run ends
with a returned nil, not a panic, and `un32` / `un64` are not called. -/
theorem accessors_nil_of_other_curve (pub : PublicKey) (priv : PrivateKey) :
    (pub.Curve ≠ Curve.ed25519Impl → Public25519 pub = ⟨[], Outcome.ret none⟩) ∧
    (priv.Curve ≠ Curve.ed25519Impl → Private25519 priv = ⟨[], Outcome.ret none⟩) := by
  constructor
  · intro hc
    have : pub.Curve.isEd25519Impl = false := by
      cases hcur : pub.Curve <;> simp_all [Curve.isEd25519Impl]
    simp [Public25519, this, pure_eq]
  · intro hc
    have : priv.Curve.isEd25519Impl = false := by
      cases hcur : priv.Curve <;> simp_all [Curve.isEd25519Impl]
    simp [Private25519, this, pure_eq]

/-- Witness of C6: `otherKey`, of another scheme, with 1-byte `X` and `D`. -/
theorem accessors_nil_of_other_curve_witness :
    otherKey.Curve ≠ Curve.ed25519Impl ∧ otherKey.X.length < 32 ∧ otherKey.D.length < 64 ∧
      Public25519 otherKey.toPublicKey = ⟨[], Outcome.ret none⟩ ∧
      Private25519 otherKey = ⟨[], Outcome.ret none⟩ :=
  ⟨by decide, by decide, by decide,
    (accessors_nil_of_other_curve otherKey.toPublicKey otherKey).1 (by decide),
    (accessors_nil_of_other_curve otherKey.toPublicKey otherKey).2 (by decide)⟩

/-- C7: `Sign` and `Verify` never panic, on any input: they test the length
before they call `un64` / `un32`. `Public25519` and `Private25519` test only
the scheme: on `shortKey`, tagged Ed25519 with a 3-byte `X` and a 2-byte `D`,
they reach `un32` / `un64` and the run ends in the helper's panic. -/
theorem accessors_panic_on_shortKey :
    (∀ (ρ : Type) (prim : Primitive ρ) (priv : PrivateKey) (data : List Byte),
      (Sign prim priv data).noPanic = true) ∧
    (∀ (ρ : Type) (prim : Primitive ρ) (pub : PublicKey) (data sig : List Byte),
      (Verify prim pub data sig).noPanic = true) ∧
    Public25519 shortKey.toPublicKey
      = ⟨[Call.un32], Outcome.panic "un32 called with non-32-byte slice"⟩ ∧
    Private25519 shortKey
      = ⟨[Call.un64], Outcome.panic "un64 called with non-64-byte slice"⟩ := by
  refine ⟨?_, ?_, rfl, rfl⟩
  · intro ρ prim priv data
    by_cases h : priv.D.length = 64
    · rw [Sign_of_length prim priv data h]; rfl
    · rw [Sign_of_bad_length prim priv data h]; rfl
  · intro ρ prim pub data sig
    by_cases h : sig.length ≠ 64 ∨ pub.X.length ≠ 32
    · rw [Verify_of_bad_length prim pub data sig h]; rfl
    · have hs : sig.length = 64 := by omega
      have hx : pub.X.length = 32 := by omega
      rw [Verify_of_length prim pub data sig hs hx]; rfl

/-- C8, counterexample: the sample primitive lays its private key out as the
spec states, `GenerateKey` on `sampleRand` returns `sampleKey`, `Private25519`
returns all 64 bytes of its `D`, and the first 32 of them (the seed) are not
the public key `X`. -/
theorem private_first_half_ne_public_sampleKey :
    samplePrimitive.Layout ∧
      (GenerateKey samplePrimitive sampleRand).outcome = Outcome.ret (some sampleKey, none) ∧
      (Private25519 sampleKey).outcome = Outcome.ret (some ⟨sampleKey.D, rfl⟩) ∧
      sampleKey.D.take 32 ≠ sampleKey.X :=
  ⟨samplePrimitive_layout, rfl, rfl, by decide⟩

/-- C8, amended: the primitive laying its private key out as the spec states,
for every key `k` returned by a successful `GenerateKey` the array returned by
`Private25519` holds `D`, and its last 32 bytes (bytes 32..63, `D[32:64]`) are
the public key `X`. -/
theorem private_second_half_eq_public {ρ : Type} (prim : Primitive ρ) (hl : prim.Layout)
    (rand : ρ) (k : PrivateKey)
    (hgen : (GenerateKey prim rand).outcome = Outcome.ret (some k, none)) :
    ∃ a, (Private25519 k).outcome = Outcome.ret (some a) ∧ a.val = k.D ∧
      (a.val.drop 32).take 32 = k.X ∧ a.val.drop 32 = k.X := by
  obtain ⟨pk, sk, hprim, hk, _⟩ := GenerateKey_some_inv prim rand k none hgen
  subst hk
  refine ⟨sk, ?_, rfl, ?_, hl rand pk sk hprim⟩
  · simp [Private25519, Curve.isEd25519Impl, un64_of_length sk.val sk.property, bind_ret, pure_eq]
  · rw [hl rand pk sk hprim]
    exact List.take_of_length_le (by rw [pk.property])

/-- Witness of C8, amended: the sample primitive and the key it yields from
`sampleRand`. -/
theorem private_second_half_eq_public_witness :
    samplePrimitive.Layout ∧
      (GenerateKey samplePrimitive sampleRand).outcome = Outcome.ret (some sampleKey, none) ∧
      ∃ a, (Private25519 sampleKey).outcome = Outcome.ret (some a) ∧ a.val = sampleKey.D ∧
        (a.val.drop 32).take 32 = sampleKey.X ∧ a.val.drop 32 = sampleKey.X :=
  ⟨samplePrimitive_layout, rfl,
    private_second_half_eq_public samplePrimitive samplePrimitive_layout sampleRand
      sampleKey rfl⟩

/-- C9: when `len(priv.D) == 64`, `Sign` returns a nil error and a signature of
exactly 64 bytes, the signature size declared by `KeySize`, and the signature
is the primitive's `Sign` output for the 64 bytes of `D` and the message. -/
theorem Sign_ok_of_length {ρ : Type} (prim : Primitive ρ) (priv : PrivateKey)
    (data : List Byte) (h : priv.D.length = 64) :
    ∃ sig, (Sign prim priv data).outcome = Outcome.ret (some sig, none) ∧
      sig.length = 64 ∧ sig.length = KeySize.2.2 ∧
      sig = (prim.Sign ⟨priv.D, h⟩ data).val := by
  refine ⟨_, by rw [Sign_of_length prim priv data h], ?_, ?_, rfl⟩
  · exact (prim.Sign ⟨priv.D, h⟩ data).property
  · exact (prim.Sign ⟨priv.D, h⟩ data).property

/-- Witness of C9: `sampleKey`, whose `D` has 64 bytes. -/
theorem Sign_ok_of_length_witness :
    sampleKey.D.length = 64 ∧
      ∃ sig, (Sign samplePrimitive sampleKey sampleData).outcome
          = Outcome.ret (some sig, none) ∧
        sig.length = 64 ∧ sig.length = KeySize.2.2 ∧
        sig = (samplePrimitive.Sign ⟨sampleKey.D, rfl⟩ sampleData).val :=
  ⟨rfl, Sign_ok_of_length samplePrimitive sampleKey sampleData rfl⟩

/-- C10: `GenerateKey` always returns; when the primitive's key generation
returns an error, `GenerateKey` returns that same error with a nil private key;
and whenever `GenerateKey` returns a nil error, the private key is non-nil and
its `Curve` is the Ed25519 scheme. -/
theorem GenerateKey_error_or_tagged_key {ρ : Type} (prim : Primitive ρ) (rand : ρ) :
    (∃ p err, (GenerateKey prim rand).outcome = Outcome.ret (p, err)) ∧
    (∀ e, prim.GenerateKey rand = Except.error e →
      (GenerateKey prim rand).outcome = Outcome.ret (none, some e)) ∧
    (∀ p, (GenerateKey prim rand).outcome = Outcome.ret (p, none) →
      ∃ k, p = some k ∧ k.Curve = Ed25519) := by
  cases h : prim.GenerateKey rand with
  | error e =>
    rw [GenerateKey_error prim rand e h]
    exact ⟨⟨_, _, rfl⟩, fun e1 he => (by cases he; rfl), fun p hp => (by simp at hp)⟩
  | ok q =>
    obtain ⟨pk, sk⟩ := q
    rw [GenerateKey_ok prim rand pk sk h]
    refine ⟨⟨_, _, rfl⟩, fun e1 he => (by cases he), fun p hp => ?_⟩
    simp only [Outcome.ret.injEq, Prod.mk.injEq, and_true] at hp
    exact ⟨_, hp.symm, rfl⟩

/-- Witness of C10: the exhausted random source, on which the sample primitive
fails, and `sampleRand`, on which it succeeds. -/
theorem GenerateKey_error_or_tagged_key_witness :
    samplePrimitive.GenerateKey emptyRand = Except.error (GoError.other "unexpected EOF") ∧
      (GenerateKey samplePrimitive emptyRand).outcome
        = Outcome.ret (none, some (GoError.other "unexpected EOF")) ∧
      (GenerateKey samplePrimitive sampleRand).outcome = Outcome.ret (some sampleKey, none) ∧
      ∃ k, some sampleKey = some k ∧ k.Curve = Ed25519 :=
  ⟨rfl, (GenerateKey_error_or_tagged_key samplePrimitive emptyRand).2.1 _ rfl, rfl,
    (GenerateKey_error_or_tagged_key samplePrimitive sampleRand).2.2 (some sampleKey) rfl⟩

end Eddsa
